import Mathlib

/-!
Verification development for the unipoll API workspace permission engine.

The repository's permission/policy engine is exercised from
`src/routes/workspace.py` (the gated workspace routes) and
`app/routes/workspace.py` (the legacy routes).  The engine itself
(`src.utils.permissions`, `src.actions.workspace`) is modelled from the
specification where the repository sources do not contain it; each such
definition carries a doc comment starting `Modelled from the spec:`.
-/

abbrev PermissionName := String

/-- Modelled from the spec: §4.1 Permission Catalog — the immutable enumeration of
workspace-scope action names.  The concrete names are taken from the repository:
the `PolicyOutput` schema example in `app/schemas/policy.py` lists the thirteen
workspace permissions, and `src/routes/workspace.py` additionally indexes
`WorkspacePermissions["get_workspace_policies"]`, so that name exists in the
catalog as well. -/
def workspaceCatalog : List PermissionName :=
  ["get_workspaces", "create_workspace", "get_workspace", "update_workspace",
   "delete_workspace", "get_workspace_members", "add_workspace_members",
   "remove_workspace_member", "get_groups", "create_group",
   "get_all_workspace_policies", "get_workspace_policy", "set_workspace_policy",
   "get_workspace_policies"]

/-- The catalog as a finite set: the full permission set granted by the owner bypass. -/
def workspaceCatalogSet : Finset PermissionName := workspaceCatalog.toFinset

/-- Policy holders are accounts or groups (`policy_holder_type` in
`app/schemas/policy.py`). -/
inductive HolderType where
  | account
  | group
deriving DecidableEq

/-- A reference to a policy holder: the discriminator tag plus the holder's id. -/
structure HolderRef where
  type : HolderType
  id : Nat
deriving DecidableEq

/-- A Policy record: one holder and its permission set, implicitly scoped to one
workspace (`Policy` in `app/schemas/policy.py`, permission set drawn from the
catalog). -/
structure Policy where
  holder : HolderRef
  permissions : Finset PermissionName
deriving DecidableEq

/-- A Workspace: id, name, description, owning account, member account ids and
group ids (spec §3). -/
structure Workspace where
  id : Nat
  name : String
  description : String
  owner : Nat
  members : List Nat
  groups : List Nat
deriving DecidableEq

/-- An Account: id plus its global group memberships by group id
(`groups: List[PydanticObjectId]` in `app/models/user.py`). -/
structure Account where
  id : Nat
  groups : List Nat
deriving DecidableEq

/-- Modelled from the spec: §4.2 Policy Store Adapter `find(workspace_id, holder)`.
The store of one workspace is its list of Policy records, in insertion order. -/
def findPolicy (store : List Policy) (h : HolderRef) : Option Policy :=
  store.find? (fun p => decide (p.holder = h))

/-- Modelled from the spec: §4.2 Policy Store Adapter `upsert` — replace-semantics
write keyed by the holder; an existing record for the holder is overwritten in
place, otherwise the record is appended. -/
def upsert (store : List Policy) (p : Policy) : List Policy :=
  if store.any (fun q => decide (q.holder = p.holder)) then
    store.map (fun q => if q.holder = p.holder then p else q)
  else
    store ++ [p]

/-- Modelled from the spec: §4.3 Policy Resolution Engine
`resolve_effective_permissions(workspace, account)` (the repository's
`Permissions.get_all_permissions`, absent from the sources): owner bypass, then
the union of the account's direct policy with the policies of every group of the
workspace the account belongs to; absence of any policy yields the empty set. -/
def resolve_effective_permissions (w : Workspace) (store : List Policy)
    (a : Account) : Finset PermissionName :=
  if a.id = w.owner then
    workspaceCatalogSet
  else
    let direct : Finset PermissionName :=
      match findPolicy store ⟨HolderType.account, a.id⟩ with
      | some p => p.permissions
      | none => ∅
    let memberGroups : List Nat := w.groups.filter (fun g => a.groups.contains g)
    let groupPolicies : List Policy :=
      store.filter (fun p =>
        decide (p.holder.type = HolderType.group) && memberGroups.contains p.holder.id)
    direct ∪ groupPolicies.foldr (fun p acc => p.permissions ∪ acc) ∅

/-- Modelled from the spec: §4.4 Permission Check Gate with a single required
permission (the form used at the call sites in `src/routes/workspace.py`). -/
def check_permission (eff : Finset PermissionName) (req : PermissionName) : Bool :=
  decide (req ∈ eff)

/-- Modelled from the spec: §4.4 `check_all` — every required permission must be
present in the effective set. -/
def check_all (eff req : Finset PermissionName) : Bool :=
  decide (req ⊆ eff)

/-- Modelled from the spec: §4.4 `check_any` — at least one required permission is
present; the empty requirement is vacuously satisfied. -/
def check_any (eff req : Finset PermissionName) : Bool :=
  if req = ∅ then true else decide (∃ p ∈ req, p ∈ eff)

/-- Typed errors of the Policy Mutation Engine (spec §7). -/
inductive PolicyError where
  | InvalidPermission (name : PermissionName)
  | HolderNotInWorkspace
deriving DecidableEq

/-- Modelled from the spec: §4.5 — the holder currently belongs to the workspace:
an account holder is a member, a group holder is one of the workspace's groups. -/
def holderInWorkspace (w : Workspace) (h : HolderRef) : Bool :=
  match h.type with
  | HolderType.account => w.members.contains h.id
  | HolderType.group => w.groups.contains h.id

/-- Modelled from the spec: §4.5 Policy Mutation Engine `set_policy` (the
repository's `WorkspaceActions.set_workspace_policy`, absent from the sources):
validate every requested name against the catalog (`InvalidPermission`
otherwise), validate the holder's membership (`HolderNotInWorkspace` otherwise),
then perform a replace write through the store adapter and return the resulting
Policy. -/
def set_policy (w : Workspace) (store : List Policy) (h : HolderRef)
    (requested : List PermissionName) : Except PolicyError (List Policy × Policy) :=
  match requested.find? (fun n => !(workspaceCatalog.contains n)) with
  | some bad => Except.error (PolicyError.InvalidPermission bad)
  | none =>
    if holderInWorkspace w h then
      let newPolicy : Policy := ⟨h, requested.toFinset⟩
      Except.ok (upsert store newPolicy, newPolicy)
    else
      Except.error PolicyError.HolderNotInWorkspace

/-- Modelled from the spec: §5 — mutation is a single atomic upsert, so the store
after a `set_policy` call is the new store on success and the unchanged store on
failure (no partial write). -/
def apply_set_policy (w : Workspace) (store : List Policy) (h : HolderRef)
    (requested : List PermissionName) : List Policy :=
  match set_policy w store h requested with
  | Except.ok (store2, _) => store2
  | Except.error _ => store

/-- Modelled from the spec: §3/§8 — removing an account from a workspace's
membership cascade-deletes that account's direct Policy in the workspace
(the repository's `WorkspaceActions.remove_workspace_member`, absent from the
sources). -/
def remove_workspace_member (w : Workspace) (store : List Policy)
    (accountId : Nat) : Workspace × List Policy :=
  ({ w with members := w.members.filter (fun m => !(m == accountId)) },
   store.filter (fun p => !(decide (p.holder = HolderRef.mk HolderType.account accountId))))

/-- The calling layer's denial value, produced from a false gate result (spec §7). -/
inductive GateError where
  | PermissionDenied
deriving DecidableEq

/-- Modelled from the spec: §2/§4.4/§7 — the dispatcher gates every sub-resource
operation (the `check_workspace_permission` router dependency in
`src/routes/workspace.py`): on a true gate result the requested operation runs,
on a false result a structured denial is returned instead and the operation is
never invoked. -/
def gate_operation {σ α : Type} (eff req : Finset PermissionName)
    (op : σ → σ × α) (s : σ) : Except GateError (σ × α) :=
  if check_all eff req then Except.ok (op s) else Except.error GateError.PermissionDenied

/-- The state after a gated operation: the operation's post-state on success, the
unchanged state on denial. -/
def gate_state {σ α : Type} (eff req : Finset PermissionName)
    (op : σ → σ × α) (s : σ) : σ :=
  match gate_operation eff req op s with
  | Except.ok (s2, _) => s2
  | Except.error _ => s

/-- The legacy `set_permissions` handler in `app/routes/workspace.py` (lines
89-103): the action call is commented out and the handler body is `return 200`.
State (workspace and policy store) is threaded explicitly to expose the frame. -/
def set_permissions (w : Workspace) (store : List Policy)
    (permissionsBody : Int) : (Workspace × List Policy) × Nat :=
  ((w, store), 200)

/-- The response model of `get_workspace` (`WorkspaceSchemas.Workspace`): basic
fields plus three optional sub-resources, each `none` unless fetched. -/
structure WorkspaceOut where
  id : Nat
  name : String
  description : String
  groups : Option (List Nat)
  members : Option (List Nat)
  policies : Option (List Policy)
deriving DecidableEq

/-- The `get_workspace` handler in `src/routes/workspace.py` (lines 65-118):
with no `include` (or an empty one) only the basic fields are returned; otherwise
the caller's permissions are resolved, `"all"` rewrites the include list to
`["policies", "groups", "members"]`, and each named sub-resource is fetched only
when the corresponding permission check passes, staying `None` otherwise.  The
permission resolution it calls (`Permissions.get_all_permissions`) is modelled
from the spec, as above. -/
def get_workspace (w : Workspace) (store : List Policy) (a : Account)
    (inc : Option (List String)) : WorkspaceOut :=
  match inc with
  | none => ⟨w.id, w.name, w.description, none, none, none⟩
  | some l =>
    if l.isEmpty then ⟨w.id, w.name, w.description, none, none, none⟩
    else
      let perms := resolve_effective_permissions w store a
      let l2 := if l.contains "all" then ["policies", "groups", "members"] else l
      let groups := if l2.contains "groups" && check_permission perms "get_groups"
        then some w.groups else none
      let members :=
        if l2.contains "members" && check_permission perms "get_workspace_members"
        then some w.members else none
      let policies :=
        if l2.contains "policies" && check_permission perms "get_workspace_policies"
        then some store else none
      ⟨w.id, w.name, w.description, groups, members, policies⟩

/-- Whether a mutation result is an `InvalidPermission` failure. -/
def isInvalidPermissionError (r : Except PolicyError (List Policy × Policy)) : Bool :=
  match r with
  | Except.error (PolicyError.InvalidPermission _) => true
  | _ => false

/-! ### Helper lemmas -/

/-- Membership in the right fold of unions over a policy list. -/
theorem mem_foldr_union (l : List Policy) (x : PermissionName) :
    x ∈ l.foldr (fun p acc => p.permissions ∪ acc) ∅ ↔ ∃ p ∈ l, x ∈ p.permissions := by
  induction l with
  | nil => simp
  | cons p l ih => simp [ih]

/-- Elementwise characterization of the resolution engine for a non-owner: a
permission is effective exactly when it comes from the direct account policy or
from a group policy of a workspace group the account belongs to. -/
theorem mem_resolve (w : Workspace) (store : List Policy) (a : Account)
    (hown : a.id ≠ w.owner) (x : PermissionName) :
    x ∈ resolve_effective_permissions w store a ↔
      ((∃ p, findPolicy store ⟨HolderType.account, a.id⟩ = some p ∧ x ∈ p.permissions) ∨
       (∃ p ∈ store, p.holder.type = HolderType.group ∧ p.holder.id ∈ w.groups ∧
          p.holder.id ∈ a.groups ∧ x ∈ p.permissions)) := by
  unfold resolve_effective_permissions
  rw [if_neg hown]
  rcases heq : findPolicy store ⟨HolderType.account, a.id⟩ with _ | p <;>
    simp [heq, mem_foldr_union, List.mem_filter, and_assoc]

/-! ### Claims -/

/-- Claim C1: for every workspace W and every account O owning W,
`resolve_effective_permissions(W, O)` returns the full Permission Catalog set for
workspace scope, regardless of which explicit Policy records exist for O in W —
the owner bypass short-circuits before any policy fetch. -/
theorem c1_owner_bypass (w : Workspace) (store : List Policy) (a : Account)
    (h : a.id = w.owner) :
    resolve_effective_permissions w store a = workspaceCatalogSet := by
  unfold resolve_effective_permissions
  rw [if_pos h]

/-- Claim C1 witness: a concrete owner with an explicit restrictive direct policy
still resolves to the full catalog set. -/
theorem c1_owner_bypass_witness :
    (Account.mk 1 []).id = (Workspace.mk 7 "Acme" "d" 1 [1] []).owner ∧
    resolve_effective_permissions (Workspace.mk 7 "Acme" "d" 1 [1] [])
      [Policy.mk ⟨HolderType.account, 1⟩ {"get_groups"}] (Account.mk 1 []) =
      workspaceCatalogSet :=
  ⟨rfl, c1_owner_bypass _ _ _ rfl⟩

/-- Claim C9: the legacy `set_permissions` route performs no mutation at all — the
workspace and every policy record are left unchanged and the handler returns the
constant 200, regardless of the workspace or the permissions value in the body. -/
theorem c9_legacy_route_no_mutation (w : Workspace) (store : List Policy) (body : Int) :
    set_permissions w store body = ((w, store), 200) := rfl

/-- Claim C7: when the Permission Check Gate evaluates to false for the caller's
effective permission set, a gated sub-resource operation returns a structured
denial and the requested operation does not execute (the state is unchanged); on
a true gate result the operation proceeds. -/
theorem c7_gate_denial {σ α : Type} (eff req : Finset PermissionName)
    (op : σ → σ × α) (s : σ) :
    (check_all eff req = false →
      gate_operation eff req op s = Except.error GateError.PermissionDenied ∧
      gate_state eff req op s = s) ∧
    (check_all eff req = true →
      gate_operation eff req op s = Except.ok (op s) ∧
      gate_state eff req op s = (op s).1) := by
  rcases hop : op s with ⟨s2, a2⟩
  constructor <;> intro h <;> simp [gate_operation, gate_state, h, hop]

/-- Claim C7 witness: with an empty effective set and a nonempty requirement, the
concrete gated counter increment is denied and the counter stays 0. -/
theorem c7_gate_denial_witness :
    check_all (∅ : Finset PermissionName) {"get_groups"} = false ∧
    gate_operation (∅ : Finset PermissionName) {"get_groups"}
      (fun n : Nat => (n + 1, true)) 0 = Except.error GateError.PermissionDenied ∧
    gate_state (∅ : Finset PermissionName) {"get_groups"}
      (fun n : Nat => (n + 1, true)) 0 = 0 :=
  ⟨by decide,
   ((c7_gate_denial ∅ {"get_groups"} (fun n : Nat => (n + 1, true)) 0).1 (by decide)).1,
   ((c7_gate_denial ∅ {"get_groups"} (fun n : Nat => (n + 1, true)) 0).1 (by decide)).2⟩

/-- Claim C2: for every non-owner account A in workspace W, the effective
permission set is exactly the union of A's direct account-policy permissions
(empty when there is no direct policy) and the permissions of every group policy
of every workspace group A is a member of — duplicates collapsed, nothing
omitted, nothing added. -/
theorem c2_additive_union (w : Workspace) (store : List Policy) (a : Account)
    (hown : a.id ≠ w.owner) :
    resolve_effective_permissions w store a =
      (findPolicy store ⟨HolderType.account, a.id⟩).elim ∅ Policy.permissions ∪
      (store.toFinset.filter (fun p => p.holder.type = HolderType.group ∧
          p.holder.id ∈ w.groups ∧ p.holder.id ∈ a.groups)).biUnion
        Policy.permissions := by
  ext x
  rw [mem_resolve w store a hown x]
  rcases heq : findPolicy store ⟨HolderType.account, a.id⟩ with _ | p <;>
    simp [heq, Finset.mem_biUnion, Finset.mem_filter, List.mem_toFinset, and_assoc]

/-- Claim C2 witness: the spec's concrete example — direct policy
{create_group, get_groups} plus group policies {get_groups, get_workspace_members}
and {create_workspace} resolve to exactly the four-element union. -/
theorem c2_additive_union_witness :
    resolve_effective_permissions (Workspace.mk 7 "Acme" "d" 1 [2] [10, 11])
      [Policy.mk ⟨HolderType.account, 2⟩ {"create_group", "get_groups"},
       Policy.mk ⟨HolderType.group, 10⟩ {"get_groups", "get_workspace_members"},
       Policy.mk ⟨HolderType.group, 11⟩ {"create_workspace"}]
      (Account.mk 2 [10, 11]) =
      (findPolicy
          [Policy.mk ⟨HolderType.account, 2⟩ {"create_group", "get_groups"},
           Policy.mk ⟨HolderType.group, 10⟩ {"get_groups", "get_workspace_members"},
           Policy.mk ⟨HolderType.group, 11⟩ {"create_workspace"}]
          ⟨HolderType.account, 2⟩).elim ∅ Policy.permissions ∪
        (([Policy.mk ⟨HolderType.account, 2⟩ {"create_group", "get_groups"},
           Policy.mk ⟨HolderType.group, 10⟩ {"get_groups", "get_workspace_members"},
           Policy.mk ⟨HolderType.group, 11⟩ {"create_workspace"}].toFinset.filter
            (fun p => p.holder.type = HolderType.group ∧
              p.holder.id ∈ (Workspace.mk 7 "Acme" "d" 1 [2] [10, 11]).groups ∧
              p.holder.id ∈ (Account.mk 2 [10, 11]).groups)).biUnion
          Policy.permissions) :=
  c2_additive_union _ _ _ (by decide)

/-- Claim C5: an account with no direct policy and no contributing group policy
resolves to the empty set (default deny); `check_all` of a nonempty requirement
against the empty effective set is false; and `check_any` with both sets empty is
true (the vacuous any-of convention). -/
theorem c5_default_deny (w : Workspace) (store : List Policy) (a : Account)
    (R : Finset PermissionName)
    (hown : a.id ≠ w.owner)
    (hdirect : findPolicy store ⟨HolderType.account, a.id⟩ = none)
    (hgroup : ∀ p ∈ store, p.holder.type = HolderType.group →
      p.holder.id ∉ w.groups ∨ p.holder.id ∉ a.groups)
    (hR : R ≠ ∅) :
    resolve_effective_permissions w store a = ∅ ∧
    check_all (∅ : Finset PermissionName) R = false ∧
    check_any (∅ : Finset PermissionName) (∅ : Finset PermissionName) = true := by
  refine ⟨?_, ?_, by simp [check_any]⟩
  · ext x
    simp only [Finset.not_mem_empty, iff_false]
    rw [mem_resolve w store a hown x]
    rintro (⟨p, hp, _⟩ | ⟨p, hps, htype, hw, ha, _⟩)
    · rw [hdirect] at hp
      cases hp
    · rcases hgroup p hps htype with h | h
      · exact h hw
      · exact h ha
  · rw [check_all, decide_eq_false_iff_not, Finset.subset_empty]
    exact hR

/-- Claim C5 witness: a concrete member with no direct policy, in no group, in a
workspace holding one unrelated group policy, resolves to the empty set; the
concrete gate checks behave as stated. -/
theorem c5_default_deny_witness :
    resolve_effective_permissions (Workspace.mk 7 "Acme" "d" 1 [2] [5])
      [Policy.mk ⟨HolderType.group, 5⟩ {"get_groups"}] (Account.mk 2 []) = ∅ ∧
    check_all (∅ : Finset PermissionName) {"get_groups"} = false ∧
    check_any (∅ : Finset PermissionName) (∅ : Finset PermissionName) = true :=
  c5_default_deny _ _ _ _ (by decide) (by decide) (by decide) (by decide)

/-- After a replace write for an existing holder, looking the holder up yields
exactly the written record. -/
theorem findPolicy_map_replace (t : List Policy) (p : Policy)
    (h : ∃ q ∈ t, q.holder = p.holder) :
    findPolicy (t.map (fun q => if q.holder = p.holder then p else q)) p.holder =
      some p := by
  induction t with
  | nil => simp at h
  | cons q t ih =>
    by_cases hq : q.holder = p.holder
    · simp [findPolicy, List.find?_cons, hq]
    · rcases h with ⟨r, hr, hrh⟩
      rcases List.mem_cons.mp hr with rfl | hrt
      · exact absurd hrh hq
      · simpa [findPolicy, List.find?_cons, hq] using ih ⟨r, hrt, hrh⟩

/-- After appending a record for a holder absent from the store, looking the
holder up yields exactly the appended record. -/
theorem findPolicy_append_new (t : List Policy) (p : Policy)
    (h : ∀ q ∈ t, ¬ q.holder = p.holder) :
    findPolicy (t ++ [p]) p.holder = some p := by
  unfold findPolicy
  rw [List.find?_append]
  have h1 : t.find? (fun q => decide (q.holder = p.holder)) = none := by
    rw [List.find?_eq_none]
    intro q hq
    simpa using h q hq
  simp [h1]

/-- The store adapter's upsert always leaves the written record retrievable. -/
theorem findPolicy_upsert (store : List Policy) (p : Policy) :
    findPolicy (upsert store p) p.holder = some p := by
  unfold upsert
  by_cases hany : store.any (fun q => decide (q.holder = p.holder)) = true
  · rw [if_pos hany]
    exact findPolicy_map_replace store p (by simpa using hany)
  · rw [if_neg hany]
    refine findPolicy_append_new store p ?_
    intro q hq
    rw [List.any_eq_true] at hany
    intro hcontra
    exact hany ⟨q, hq, by simpa using hcontra⟩

/-- The store adapter's upsert is idempotent. -/
theorem upsert_idem (store : List Policy) (p : Policy) :
    upsert (upsert store p) p = upsert store p := by
  unfold upsert
  by_cases hany : store.any (fun q => decide (q.holder = p.holder)) = true
  · rw [if_pos hany]
    rcases List.any_eq_true.mp hany with ⟨q, hq, hqh⟩
    have hany2 : (store.map (fun q => if q.holder = p.holder then p else q)).any
        (fun q => decide (q.holder = p.holder)) = true := by
      rw [List.any_eq_true]
      exact ⟨p, List.mem_map.mpr ⟨q, hq, by simp [of_decide_eq_true hqh]⟩, by simp⟩
    rw [if_pos hany2, List.map_map]
    refine List.map_congr_left ?_
    intro r _
    by_cases hr : r.holder = p.holder <;> simp [Function.comp, hr]
  · rw [if_neg hany]
    have hall : ∀ q ∈ store, ¬ q.holder = p.holder := by
      rw [List.any_eq_true] at hany
      intro q hq hcontra
      exact hany ⟨q, hq, by simpa using hcontra⟩
    have hany2 : ((store ++ [p]).any (fun q => decide (q.holder = p.holder))) = true := by
      simp
    rw [if_pos hany2, List.map_append]
    have hmapid : store.map (fun q => if q.holder = p.holder then p else q) = store := by
      have := List.map_congr_left (l := store)
        (f := fun q => if q.holder = p.holder then p else q) (g := id)
        (fun q hq => if_neg (hall q hq))
      simpa using this
    simp [hmapid]

/-- Claim C3: `set_workspace_policy` has replace semantics — after
`set_policy(W, H, P1)` and then `set_policy(W, H, P2)`, the stored permission
set for H is exactly P2 (a full overwrite, never a merge: no element of
P1 \ P2 survives). -/
theorem c3_replace_semantics (w : Workspace) (s : List Policy) (h : HolderRef)
    (P1 P2 : List PermissionName) (s1 s2 : List Policy) (pol1 pol2 : Policy)
    (h1 : set_policy w s h P1 = Except.ok (s1, pol1))
    (h2 : set_policy w s1 h P2 = Except.ok (s2, pol2)) :
    findPolicy s2 h = some (Policy.mk h P2.toFinset) ∧
    pol2 = Policy.mk h P2.toFinset := by
  clear h1
  unfold set_policy at h2
  rcases hf : P2.find? (fun n => !(workspaceCatalog.contains n)) with _ | bad
  · rw [hf] at h2
    by_cases hw : holderInWorkspace w h
    · rw [if_pos hw] at h2
      simp only [Except.ok.injEq, Prod.mk.injEq] at h2
      obtain ⟨hs2, hpol⟩ := h2
      subst hs2
      subst hpol
      exact ⟨findPolicy_upsert s1 (Policy.mk h P2.toFinset), rfl⟩
    · rw [if_neg hw] at h2
      simp at h2
  · rw [hf] at h2
    simp at h2

/-- Claim C3 witness: granting {get_groups, get_workspace} and then {create_group}
to the same concrete member leaves exactly {create_group} stored. -/
theorem c3_replace_semantics_witness :
    findPolicy [Policy.mk ⟨HolderType.account, 2⟩
        (["create_group"] : List PermissionName).toFinset] ⟨HolderType.account, 2⟩ =
      some (Policy.mk ⟨HolderType.account, 2⟩
        (["create_group"] : List PermissionName).toFinset) ∧
    Policy.mk ⟨HolderType.account, 2⟩ (["create_group"] : List PermissionName).toFinset =
      Policy.mk ⟨HolderType.account, 2⟩ (["create_group"] : List PermissionName).toFinset :=
  c3_replace_semantics (Workspace.mk 7 "Acme" "d" 1 [2] []) [] ⟨HolderType.account, 2⟩
    ["get_groups", "get_workspace"] ["create_group"]
    [Policy.mk ⟨HolderType.account, 2⟩
      (["get_groups", "get_workspace"] : List PermissionName).toFinset]
    [Policy.mk ⟨HolderType.account, 2⟩ (["create_group"] : List PermissionName).toFinset]
    (Policy.mk ⟨HolderType.account, 2⟩
      (["get_groups", "get_workspace"] : List PermissionName).toFinset)
    (Policy.mk ⟨HolderType.account, 2⟩ (["create_group"] : List PermissionName).toFinset)
    rfl rfl

/-- Claim C4: `set_policy` is idempotent — a second call with the same workspace,
holder and permission list returns the same store and the same Policy as the
first. -/
theorem c4_set_policy_idempotent (w : Workspace) (s : List Policy) (h : HolderRef)
    (P : List PermissionName) (s1 : List Policy) (pol : Policy)
    (h1 : set_policy w s h P = Except.ok (s1, pol)) :
    set_policy w s1 h P = Except.ok (s1, pol) := by
  unfold set_policy at h1
  rcases hf : P.find? (fun n => !(workspaceCatalog.contains n)) with _ | bad
  · rw [hf] at h1
    by_cases hw : holderInWorkspace w h = true
    · rw [if_pos hw] at h1
      simp only [Except.ok.injEq, Prod.mk.injEq] at h1
      obtain ⟨hs1, hpol⟩ := h1
      subst hs1
      subst hpol
      simp only [set_policy, hf, hw, if_true, upsert_idem]
    · rw [if_neg hw] at h1
      simp at h1
  · rw [hf] at h1
    simp at h1

/-- Claim C4 witness: repeating a concrete grant leaves the concrete stored state
and the returned Policy unchanged. -/
theorem c4_set_policy_idempotent_witness :
    set_policy (Workspace.mk 7 "Acme" "d" 1 [2] [])
      [Policy.mk ⟨HolderType.account, 2⟩ (["get_groups"] : List PermissionName).toFinset]
      ⟨HolderType.account, 2⟩ ["get_groups"] =
      Except.ok
        ([Policy.mk ⟨HolderType.account, 2⟩
            (["get_groups"] : List PermissionName).toFinset],
         Policy.mk ⟨HolderType.account, 2⟩
           (["get_groups"] : List PermissionName).toFinset) :=
  c4_set_policy_idempotent (Workspace.mk 7 "Acme" "d" 1 [2] []) [] ⟨HolderType.account, 2⟩
    ["get_groups"]
    [Policy.mk ⟨HolderType.account, 2⟩ (["get_groups"] : List PermissionName).toFinset]
    (Policy.mk ⟨HolderType.account, 2⟩ (["get_groups"] : List PermissionName).toFinset)
    rfl

/-- Claim C6: when any requested permission name is absent from the catalog,
`set_policy` fails with `InvalidPermission` and the store is left completely
unchanged — no partial write occurs. -/
theorem c6_invalid_grant_atomic (w : Workspace) (s : List Policy) (h : HolderRef)
    (req : List PermissionName)
    (hbad : ∃ n ∈ req, n ∉ workspaceCatalog) :
    isInvalidPermissionError (set_policy w s h req) = true ∧
    apply_set_policy w s h req = s := by
  have hsome : (req.find? (fun n => !(workspaceCatalog.contains n))).isSome := by
    rw [List.find?_isSome]
    rcases hbad with ⟨n, hn, hnc⟩
    exact ⟨n, hn, by simpa using hnc⟩
  rcases hf : req.find? (fun n => !(workspaceCatalog.contains n)) with _ | bad
  · rw [hf] at hsome
    simp at hsome
  · constructor
    · unfold isInvalidPermissionError set_policy
      rw [hf]
    · unfold apply_set_policy set_policy
      rw [hf]

/-- Claim C6 witness: requesting the unknown name leaves the concrete prior
policy store untouched and reports an invalid-permission failure. -/
theorem c6_invalid_grant_atomic_witness :
    isInvalidPermissionError
      (set_policy (Workspace.mk 7 "Acme" "d" 1 [2] [])
        [Policy.mk ⟨HolderType.account, 2⟩ {"get_groups"}]
        ⟨HolderType.account, 2⟩ ["not_a_real_permission"]) = true ∧
    apply_set_policy (Workspace.mk 7 "Acme" "d" 1 [2] [])
      [Policy.mk ⟨HolderType.account, 2⟩ {"get_groups"}]
      ⟨HolderType.account, 2⟩ ["not_a_real_permission"] =
      [Policy.mk ⟨HolderType.account, 2⟩ {"get_groups"}] :=
  c6_invalid_grant_atomic _ _ _ _ ⟨"not_a_real_permission", by decide, by decide⟩

/-- Claim C8: after removing an account from a workspace's membership, the
account's direct Policy record no longer exists, and a subsequent resolution for
that (non-owner) account includes no permission that was granted only through
the direct policy (i.e. not available through any of its group policies). -/
theorem c8_cascade_deletion (w : Workspace) (store : List Policy) (a : Account)
    (hown : a.id ≠ w.owner) :
    findPolicy (remove_workspace_member w store a.id).2 ⟨HolderType.account, a.id⟩ =
      none ∧
    ∀ x : PermissionName,
      (∀ p ∈ store, p.holder.type = HolderType.group → p.holder.id ∈ w.groups →
        p.holder.id ∈ a.groups → x ∉ p.permissions) →
      x ∉ resolve_effective_permissions (remove_workspace_member w store a.id).1
            (remove_workspace_member w store a.id).2 a := by
  have hfind : findPolicy (remove_workspace_member w store a.id).2
      ⟨HolderType.account, a.id⟩ = none := by
    unfold remove_workspace_member findPolicy
    rw [List.find?_eq_none]
    intro p hp
    have hkeep := (List.mem_filter.mp hp).2
    simpa using hkeep
  refine ⟨hfind, ?_⟩
  intro x hx hmem
  have hown2 : a.id ≠ (remove_workspace_member w store a.id).1.owner := hown
  rw [mem_resolve (remove_workspace_member w store a.id).1
    (remove_workspace_member w store a.id).2 a hown2 x] at hmem
  rcases hmem with ⟨p, hp, _⟩ | ⟨p, hps, htype, hwg, hag, hxp⟩
  · rw [hfind] at hp
    cases hp
  · have hpstore : p ∈ store := (List.mem_filter.mp hps).1
    exact hx p hpstore htype hwg hag hxp

/-- Claim C8 witness: removing concrete member 2 deletes its direct policy, and
the directly granted create_group is no longer effective while the group policy
never granted it. -/
theorem c8_cascade_deletion_witness :
    findPolicy
      (remove_workspace_member (Workspace.mk 7 "Acme" "d" 1 [2] [5])
        [Policy.mk ⟨HolderType.account, 2⟩ {"create_group"},
         Policy.mk ⟨HolderType.group, 5⟩ {"get_groups"}] 2).2
      ⟨HolderType.account, 2⟩ = none ∧
    "create_group" ∉
      resolve_effective_permissions
        (remove_workspace_member (Workspace.mk 7 "Acme" "d" 1 [2] [5])
          [Policy.mk ⟨HolderType.account, 2⟩ {"create_group"},
           Policy.mk ⟨HolderType.group, 5⟩ {"get_groups"}] 2).1
        (remove_workspace_member (Workspace.mk 7 "Acme" "d" 1 [2] [5])
          [Policy.mk ⟨HolderType.account, 2⟩ {"create_group"},
           Policy.mk ⟨HolderType.group, 5⟩ {"get_groups"}] 2).2
        (Account.mk 2 [5]) := by
  have H := c8_cascade_deletion (Workspace.mk 7 "Acme" "d" 1 [2] [5])
    [Policy.mk ⟨HolderType.account, 2⟩ {"create_group"},
     Policy.mk ⟨HolderType.group, 5⟩ {"get_groups"}]
    (Account.mk 2 [5]) (by decide)
  exact ⟨H.1, H.2 "create_group" (by decide)⟩

/-- Claim C10: `get_workspace` always returns the workspace's basic fields
independently of the caller's permissions; an include list containing "all" is
treated exactly as ["policies", "groups", "members"]; and each sub-resource is
populated exactly when it is named in the include list and the caller's effective
permissions pass the corresponding check, staying None (with no error) otherwise. -/
theorem c10_get_workspace_response (w : Workspace) (store : List Policy)
    (a : Account) (inc : Option (List String)) (l : List String) :
    ((get_workspace w store a inc).id = w.id ∧
     (get_workspace w store a inc).name = w.name ∧
     (get_workspace w store a inc).description = w.description) ∧
    ("all" ∈ l →
      get_workspace w store a (some l) =
        get_workspace w store a (some ["policies", "groups", "members"])) ∧
    ((get_workspace w store a (some l)).groups =
      if l ≠ [] ∧ ("groups" ∈ l ∨ "all" ∈ l) ∧
          check_permission (resolve_effective_permissions w store a) "get_groups" = true
      then some w.groups else none) ∧
    ((get_workspace w store a (some l)).members =
      if l ≠ [] ∧ ("members" ∈ l ∨ "all" ∈ l) ∧
          check_permission (resolve_effective_permissions w store a)
            "get_workspace_members" = true
      then some w.members else none) ∧
    ((get_workspace w store a (some l)).policies =
      if l ≠ [] ∧ ("policies" ∈ l ∨ "all" ∈ l) ∧
          check_permission (resolve_effective_permissions w store a)
            "get_workspace_policies" = true
      then some store else none) := by
  refine ⟨?_, ?_, ?_, ?_, ?_⟩
  · cases inc with
    | none => exact ⟨rfl, rfl, rfl⟩
    | some l0 =>
      by_cases h : l0.isEmpty <;> simp [get_workspace, h]
  · intro hall
    have hne : l.isEmpty = false := by
      cases l with
      | nil => simp at hall
      | cons x t => rfl
    have hcont : l.contains "all" = true := by simpa using hall
    simp [get_workspace, hne, hcont, hall]
  · by_cases hl : l = []
    · subst hl
      simp [get_workspace]
    · by_cases hall2 : "all" ∈ l <;> by_cases hg : "groups" ∈ l <;>
        by_cases hc : check_permission (resolve_effective_permissions w store a)
          "get_groups" = true <;>
        simp [get_workspace, List.isEmpty_iff, hl, hall2, hg, hc]
  · by_cases hl : l = []
    · subst hl
      simp [get_workspace]
    · by_cases hall2 : "all" ∈ l <;> by_cases hg : "members" ∈ l <;>
        by_cases hc : check_permission (resolve_effective_permissions w store a)
          "get_workspace_members" = true <;>
        simp [get_workspace, List.isEmpty_iff, hl, hall2, hg, hc]
  · by_cases hl : l = []
    · subst hl
      simp [get_workspace]
    · by_cases hall2 : "all" ∈ l <;> by_cases hg : "policies" ∈ l <;>
        by_cases hc : check_permission (resolve_effective_permissions w store a)
          "get_workspace_policies" = true <;>
        simp [get_workspace, List.isEmpty_iff, hl, hall2, hg, hc]

/-- Claim C10 witness: for a concrete permissionless member, the basic fields are
returned, `include=["all"]` behaves exactly like the three-resource list, and the
groups sub-resource is silently left as None after the failed check. -/
theorem c10_get_workspace_response_witness :
    (get_workspace (Workspace.mk 7 "Acme" "d" 1 [2] []) [] (Account.mk 2 []) none).id =
      7 ∧
    get_workspace (Workspace.mk 7 "Acme" "d" 1 [2] []) [] (Account.mk 2 [])
      (some ["all"]) =
      get_workspace (Workspace.mk 7 "Acme" "d" 1 [2] []) [] (Account.mk 2 [])
        (some ["policies", "groups", "members"]) ∧
    (get_workspace (Workspace.mk 7 "Acme" "d" 1 [2] []) [] (Account.mk 2 [])
      (some ["all"])).groups = none := by
  have H := c10_get_workspace_response (Workspace.mk 7 "Acme" "d" 1 [2] []) []
    (Account.mk 2 []) none ["all"]
  refine ⟨H.1.1, H.2.1 (by decide), ?_⟩
  rw [H.2.2.1]
  decide
